import Mathlib

/-!
Verification development for the DimensiMeasure measurement core
(`src/model/measurement_model.py`).

Shallow embedding conventions:
* Python floats are modelled by `ℚ` (exact rational arithmetic).
* Images (OpenCV `ndarray`s) are lists of rows of BGR pixels; `shape[:2]`
  is recovered as (number of rows, length of the first row).
* Python exceptions are modelled by `Except String`; the `try/except`
  of `process_image` becomes a `match` on the `Except` value.
* The external collaborators (YOLO detector, JPEG codec, cv2 raster
  primitives, PIL/base64 decoding) are either injected as function
  parameters or modelled by explicitly-marked model definitions.
-/

namespace DimensiMeasure

/-- BGR pixel, one byte per channel (modelled as `Nat`). -/
abbrev Pixel := Nat × Nat × Nat

/-- An OpenCV image: a list of rows of pixels. -/
abbrev ImageBuf := List (List Pixel)

/-- Number of rows, i.e. `image.shape[0]`. -/
def ImageBuf.heightOf (img : ImageBuf) : Nat := img.length

/-- Number of columns, i.e. `image.shape[1]` (length of the first row). -/
def ImageBuf.widthOf (img : ImageBuf) : Nat := (img.headD []).length

/-- A detector output record `{'class': ..., 'confidence': ..., 'bbox': [x1,y1,x2,y2]}`. -/
structure Detection where
  cls : String
  confidence : ℚ
  bbox : Int × Int × Int × Int
deriving DecidableEq, Repr

/-- A measurement record `{'objectName': ..., 'dimensions': ..., 'confidence': ..., 'bbox': ...}`. -/
structure Measurement where
  objectName : String
  dimensions : String
  confidence : ℚ
  bbox : Int × Int × Int × Int
deriving DecidableEq, Repr

/-- The dictionary returned by `process_image`.  A missing `annotatedImage`
key is modelled as `none`. -/
structure MResult where
  success : Bool
  message : String
  measurements : List Measurement
  annotatedImage : Option String
deriving DecidableEq, Repr

/-! ### Python fixed-point formatting

`f"{x:.nf}"` rounds the value to `n` decimal places using round-half-to-even
and prints it in fixed point.  We model the float by an exact rational, so
rounding acts directly on the rational value. -/

/-- Round a rational to the nearest integer, ties to even (Python/IEEE
rounding used by `format`). -/
def roundHalfEven (q : ℚ) : Int :=
  let f : Int := ⌊q⌋
  let r : ℚ := q - f
  if r < 1/2 then f
  else if 1/2 < r then f + 1
  else if f % 2 = 0 then f else f + 1

/-- Python `f"{q:.prec f}"`: fixed-point rendering with `prec` digits after
the decimal point (no point at all when `prec = 0`, as Python prints). -/
def fmtFixed (prec : Nat) (q : ℚ) : String :=
  let m : Int := roundHalfEven (q * (10 : ℚ) ^ prec)
  let a : Nat := m.natAbs
  let ip : Nat := a / 10 ^ prec
  let fp : Nat := a % 10 ^ prec
  let sign : String := if m < 0 then "-" else ""
  if prec = 0 then sign ++ toString ip
  else
    let fs : String := toString fp
    let pad : String := String.mk (List.replicate (prec - fs.length) '0')
    sign ++ toString ip ++ "." ++ pad ++ fs

/-! ### Active pipeline constants (`MeasurementModel.__init__`) -/

/-- `self.reference_width_mm = 85.60`. -/
def reference_width_mm : ℚ := 8560 / 100

/-- `self.reference_height_mm = 53.98`. -/
def reference_height_mm : ℚ := 5398 / 100

/-- `self.common_objects`: typical dimensions (width, height) in mm per
class (a Python dict lookup by exact class-name string). -/
def common_objects (c : String) : Option (ℚ × ℚ) :=
  if c = "bottle" then some (70, 240)
  else if c = "cell phone" then some (70, 150)
  else if c = "laptop" then some (330, 230)
  else if c = "keyboard" then some (450, 150)
  else if c = "mouse" then some (60, 110)
  else if c = "book" then some (150, 220)
  else none

/-! ### Active `calculate_dimensions` (measurement_model.py:114-172) -/

/-- Body of the `for detection in detections` loop of the active
`calculate_dimensions`.  `h`, `w` are `image.shape[:2]`.  The unknown-class
branch performs the float divisions `pixel_width / w` and
`pixel_height / h`; when `w` or `h` is `0` Python raises
`ZeroDivisionError("division by zero")`, modelled as `Except.error`. -/
def measureOne (h w : Nat) (d : Detection) : Except String Measurement :=
  let (x1, y1, x2, y2) := d.bbox
  let pixel_width : Int := x2 - x1
  let pixel_height : Int := y2 - y1
  match common_objects d.cls with
  | some (wmm, hmm) =>
      .ok { objectName := d.cls
            dimensions := fmtFixed 1 (wmm / 10) ++ "×" ++ fmtFixed 1 (hmm / 10) ++ " cm"
            confidence := d.confidence * (9/10)
            bbox := d.bbox }
  | none =>
      if w = 0 ∨ h = 0 then .error ("division by zero")
      else
        let width_mm : ℚ := ((pixel_width : ℚ) / (w : ℚ)) * reference_width_mm * 4
        let height_mm : ℚ := ((pixel_height : ℚ) / (h : ℚ)) * reference_height_mm * 4
        .ok { objectName := d.cls
              dimensions := fmtFixed 1 (width_mm / 10) ++ "×" ++ fmtFixed 1 (height_mm / 10) ++ " cm"
              confidence := d.confidence * (7/10)
              bbox := d.bbox }

/-- The loop of the active `calculate_dimensions`: one record appended per
detection, stopping at the first raised exception. -/
def calcDimsLoop (h w : Nat) : List Detection → Except String (List Measurement)
  | [] => .ok []
  | d :: rest =>
      match measureOne h w d with
      | .error e => .error e
      | .ok m =>
          match calcDimsLoop h w rest with
          | .error e => .error e
          | .ok ms => .ok (m :: ms)

/-- Active `calculate_dimensions(image, detections)`. -/
def calculate_dimensions (img : ImageBuf) (dets : List Detection) :
    Except String (List Measurement) :=
  calcDimsLoop img.heightOf img.widthOf dets

/-! ### Sort order used by `process_image`

`results.sort(key=lambda x: x['confidence'], reverse=True)` is Python's
stable sort in descending confidence order.  A stable descending sort is
uniquely determined by its output being sorted and key-preserving-stable;
`List.insertionSort` with the relation below computes exactly that. -/

/-- The descending-confidence order: `a` may precede `b`. -/
def confGE (a b : Measurement) : Prop := b.confidence ≤ a.confidence

instance : DecidableRel confGE :=
  fun a b => (inferInstance : Decidable (b.confidence ≤ a.confidence))

instance : IsTotal Measurement confGE :=
  ⟨fun a b => le_total b.confidence a.confidence⟩

instance : IsTrans Measurement confGE :=
  ⟨fun _ _ _ h1 h2 => le_trans h2 h1⟩

/-! ### Drawing (`draw_measurements`, measurement_model.py:174-224)

The cv2 raster primitives are external; they are modelled as concrete
pixel-painting functions (out-of-canvas pixels are silently clipped,
as cv2 does). -/

/-- Repaint every pixel whose (row, column) position satisfies `inRegion`.
Out-of-range positions simply do not exist in the grid (cv2 clipping). -/
def paintRegion (buf : ImageBuf) (inRegion : Int → Int → Bool) (color : Pixel) : ImageBuf :=
  buf.enum.map fun rowp =>
    rowp.2.enum.map fun cellp =>
      if inRegion (rowp.1 : Int) (cellp.1 : Int) then color else cellp.2

/-- Model of the external `cv2.rectangle(img, (x1,y1), (x2,y2), color, t)`:
`t = -1` fills the rectangle, `t ≥ 0` paints a border of width `t` just
inside the rectangle. -/
def cvRectangle (buf : ImageBuf) (x1 y1 x2 y2 : Int) (color : Pixel) (t : Int) : ImageBuf :=
  if t < 0 then
    paintRegion buf (fun r c => decide (x1 ≤ c ∧ c ≤ x2 ∧ y1 ≤ r ∧ r ≤ y2)) color
  else
    paintRegion buf
      (fun r c => decide ((x1 ≤ c ∧ c ≤ x2 ∧ y1 ≤ r ∧ r ≤ y2) ∧
        (c < x1 + t ∨ x2 - t < c ∨ r < y1 + t ∨ y2 - t < r))) color

/-- Model of the external `cv2.getTextSize(label, FONT_HERSHEY_SIMPLEX, 0.5, 1)`:
a deterministic (width, height) text extent as a function of the label. -/
def cvGetTextSize (label : String) : Int × Int :=
  (10 * (label.length : Int), 11)

/-- Model of the external `cv2.putText(img, label, (x,y), ...)`: paints the
text's extent above the baseline point in the text color. -/
def cvPutText (buf : ImageBuf) (label : String) (x y : Int) (color : Pixel) : ImageBuf :=
  let wh := cvGetTextSize label
  paintRegion buf
    (fun r c => decide (x ≤ c ∧ c < x + wh.1 ∧ y - wh.2 < r ∧ r ≤ y)) color

/-- Python `f"{confidence:.0%}"`. -/
def fmtPercent0 (q : ℚ) : String := fmtFixed 0 (q * 100) ++ "%"

/-- The overlay label `f"{object_name} - {dimensions} ({confidence:.0%})"`. -/
def labelOf (m : Measurement) : String :=
  m.objectName ++ " - " ++ m.dimensions ++ " (" ++ fmtPercent0 m.confidence ++ ")"

/-- One iteration of the `for result in results` loop of `draw_measurements`:
bounding box, label background plate, label text. -/
def drawOne (buf : ImageBuf) (m : Measurement) : ImageBuf :=
  let (x1, y1, x2, y2) := m.bbox
  let box_color : Pixel := (255, 105, 180)
  let text_color : Pixel := (255, 255, 255)
  let bg_color : Pixel := (139, 0, 70)
  let label := labelOf m
  let b1 := cvRectangle buf x1 y1 x2 y2 box_color 2
  let wh := cvGetTextSize label
  let b2 := cvRectangle b1 x1 (y1 - wh.2 - 10) (x1 + wh.1 + 10) y1 bg_color (-1)
  cvPutText b2 label (x1 + 5) (y1 - 5) text_color

/-- All mutations `draw_measurements` performs, as a pure fold over the
buffer it draws on (`image_with_boxes`). -/
def drawAll (buf : ImageBuf) (results : List Measurement) : ImageBuf :=
  results.foldl drawOne buf

/-- A heap of image buffers; references are indices, allocation appends.
This makes `image.copy()` versus in-place mutation observable. -/
structure Store where
  bufs : List ImageBuf
deriving DecidableEq

/-- `draw_measurements(image, results)`: copies the image
(`image_with_boxes = image.copy()`), draws every measurement on the copy
only, and returns a reference to the freshly allocated copy. -/
def draw_measurements (σ : Store) (img : Nat) (results : List Measurement) : Store × Nat :=
  let image_with_boxes : ImageBuf := drawAll (σ.bufs.getD img []) results
  (⟨σ.bufs ++ [image_with_boxes]⟩, σ.bufs.length)

/-! ### Image input and `preprocess_image` (measurement_model.py:43-67) -/

/-- The `image_data` argument of `preprocess_image`, split by the branches
the source tests.  External decoding steps carry their own outcome:
`dataUri` holds the result of base64-decode + `Image.open` + colour
conversion, `filePath` holds whether the path exists and the outcome of
`cv2.imread` (which returns `None` on unreadable files instead of
raising). -/
inductive ImageData where
  | dataUri (decoded : Except String ImageBuf)
  | filePath (pathExists : Bool) (readResult : Option ImageBuf)
  | ndarray (img : ImageBuf)
  | otherType

/-- `preprocess_image(image_data)`.  A data-URI decode failure raises inside
the same `try` block of `process_image`; `cv2.imread` returning `None` does
not raise here but makes the first attribute access on the image raise
(still inside that `try` block), so it is modelled as an error at this
stage with the downstream exception text.  A string that is neither a data
URI nor an existing path, and any non-string non-array value, reach the
`raise ValueError("Unsupported image data format")`. -/
def preprocess_image : ImageData → Except String ImageBuf
  | .dataUri decoded => decoded
  | .filePath true (some img) => .ok img
  | .filePath true none => .error ("NoneType object has no attribute shape")
  | .filePath false _ => .error ("Unsupported image data format")
  | .ndarray img => .ok img
  | .otherType => .error ("Unsupported image data format")

/-! ### `encode_image_to_base64` and `process_image` (measurement_model.py:226-302) -/

/-- `encode_image_to_base64(image)`: the JPEG + base64 encoding is an
external codec, injected as `encode`; the source prefixes its output with
the data-URI header. -/
def encode_image_to_base64 (encode : ImageBuf → String) (img : ImageBuf) : String :=
  "data:image/jpeg;base64," ++ encode img

/-- `process_image(image_data)` with the external detector and codec
injected.  The whole body runs inside `try/except Exception`; any raised
exception `e` yields `{'success': False, 'message': f'Error processing
image: {e}', 'measurements': []}`, so the function always returns a normal
`MResult` and never propagates an exception. -/
def process_image (detect : ImageBuf → List Detection) (encode : ImageBuf → String)
    (image_data : ImageData) : MResult :=
  match preprocess_image image_data with
  | .error e =>
      { success := false, message := "Error processing image: " ++ e
        measurements := [], annotatedImage := none }
  | .ok image =>
      let detections := detect image
      match calculate_dimensions image detections with
      | .error e =>
          { success := false, message := "Error processing image: " ++ e
            measurements := [], annotatedImage := none }
      | .ok results =>
          if results = [] then
            { success := false, message := "No objects detected"
              measurements := [], annotatedImage := none }
          else
            let sorted := List.insertionSort confGE results
            let annotated := drawAll image sorted
            { success := true
              message := "Detected " ++ toString sorted.length ++ " objects"
              measurements := sorted
              annotatedImage := some (encode_image_to_base64 encode annotated) }

/-! ### The commented-out depth/FOV variant (measurement_model.py:314-519)

The second half of the source file is a fully-written historical variant of
the pipeline, kept as comments.  It contains the depth sampler, the
coordinate rescaler and the FOV geometry the spec describes; it is embedded
here as the authority for the claims that cite it. -/

/-- Normalise one bound of a Python slice `l[a:b]` against length `n`:
negative indices count from the end, then the bound is clamped to
`[0, n]`. -/
def sliceIdx (n : Nat) (i : Int) : Nat :=
  if i < 0 then ((n : Int) + i).toNat else min i.toNat n

/-- Python / numpy 1-D slice `l[a:b]`. -/
def pySlice (l : List α) (a b : Int) : List α :=
  (l.take (sliceIdx l.length b)).drop (sliceIdx l.length a)

/-- A depth map: a 2-D grid of depth values. -/
abbrev DepthMap := List (List ℚ)

/-- numpy 2-D slice `depth_map[y1:y2, x1:x2]`. -/
def cropRegion (dm : DepthMap) (y1 y2 x1 x2 : Int) : DepthMap :=
  (pySlice dm y1 y2).map fun row => pySlice row x1 x2

/-- numpy `.size` of a 2-D (list-of-rows) array: total element count. -/
def regionSize (region : DepthMap) : Nat :=
  (region.map List.length).sum

/-- `np.median`: sort ascending, middle element for odd length, mean of the
two middle elements for even length. -/
def npMedian (l : List ℚ) : ℚ :=
  let s := List.insertionSort (fun a b : ℚ => a ≤ b) l
  let n := s.length
  if n % 2 = 1 then s.getD (n / 2) 0
  else (s.getD (n / 2 - 1) 0 + s.getD (n / 2) 0) / 2

/-- The value-validity filter `(object_region > 0) & (object_region < 10)`:
a boolean mask over a 2-D array selects, in row-major order, the elements
where it holds. -/
def keptDepths (region : DepthMap) : List ℚ :=
  region.flatten.filter fun v => decide (0 < v ∧ v < 10)

/-- The depth sampling block of the variant `calculate_dimensions`
(measurement_model.py:426-431): crop `depth_map[y1:y2, x1:x2]`; if the crop
is empty the depth is `0`; otherwise keep only values in the open interval
`(0, 10)` and take their median, or `0` when nothing is kept. -/
def sample_depth (dm : DepthMap) (bbox : Int × Int × Int × Int) : ℚ :=
  let (x1, y1, x2, y2) := bbox
  let object_region := cropRegion dm y1 y2 x1 x2
  if regionSize object_region > 0 then
    let kept := keptDepths object_region
    if kept.length > 0 then npMedian kept else 0
  else 0

/-- Python `int(q)`: truncation toward zero. -/
def pyInt (q : ℚ) : Int :=
  if 0 ≤ q then ⌊q⌋ else ⌈q⌉

/-- Modelled from the spec: the Coordinate Rescaler contract
`rescale(bbox, src_size, dst_size)` of §4.2.  The source contains only its
specialization to `src_size = (640, 480)`, inlined at
measurement_model.py:417-424 (`scale_x = orig_w / 640`,
`scaled_x_min = int(x1 * scale_x)`, ...); here the source size is a
parameter, each coordinate is multiplied by its axis scale
`dst/src` and truncated by `int(...)`. -/
def rescale (bbox : Int × Int × Int × Int) (src dst : Nat × Nat) :
    Int × Int × Int × Int :=
  let (x1, y1, x2, y2) := bbox
  let scale_x : ℚ := (dst.1 : ℚ) / (src.1 : ℚ)
  let scale_y : ℚ := (dst.2 : ℚ) / (src.2 : ℚ)
  (pyInt ((x1 : ℚ) * scale_x), pyInt ((y1 : ℚ) * scale_y),
   pyInt ((x2 : ℚ) * scale_x), pyInt ((y2 : ℚ) * scale_y))

/-- `self.depth_correction_factor = 0.61 / 1.29`. -/
def depth_correction_factor : ℚ := (61/100) / (129/100)

/-- `tan(HFOV_rad / 2)`, with `HFOV_rad = 2 * atan((SENSOR_WIDTH_MM/2) /
FOCAL_LENGTH_MM)`, `SENSOR_WIDTH_MM = 3.6`, `FOCAL_LENGTH_MM = 3.5`.  Since
`tan` and `atan` cancel, the value is exactly `(3.6/2) / 3.5`; the source's
round-trip through degrees is the identity on real numbers. -/
def tan_half_hfov : ℚ := (36/10 / 2) / (35/10)

/-- `tan(VFOV_rad / 2)` with `SENSOR_HEIGHT_MM = 2.7`: exactly
`(2.7/2) / 3.5`. -/
def tan_half_vfov : ℚ := (27/10 / 2) / (35/10)

/-- Loop body of the variant `calculate_dimensions`
(measurement_model.py:419-448): rescale the bbox from the 640×480 working
resolution to the original image size, sample the depth on the un-rescaled
bbox, apply the depth correction factor, convert the rescaled pixel extents
to metres with the FOV formula, and emit the record with the
`f"{real_width:.2f}×{real_height:.2f} m"` dimension string and the
unmodified detector confidence. -/
def measureOneV2 (dm : DepthMap) (orig_w orig_h : Nat) (d : Detection) : Measurement :=
  let (x1, y1, x2, y2) := d.bbox
  let scaled := rescale d.bbox (640, 480) (orig_w, orig_h)
  let (sx1, sy1, sx2, sy2) := scaled
  let median_depth := sample_depth dm (x1, y1, x2, y2) * depth_correction_factor
  let pixel_width : Int := sx2 - sx1
  let pixel_height : Int := sy2 - sy1
  let real_width : ℚ := 2 * median_depth * tan_half_hfov * ((pixel_width : ℚ) / (orig_w : ℚ))
  let real_height : ℚ := 2 * median_depth * tan_half_vfov * ((pixel_height : ℚ) / (orig_h : ℚ))
  { objectName := d.cls
    dimensions := fmtFixed 2 real_width ++ "×" ++ fmtFixed 2 real_height ++ " m"
    confidence := d.confidence
    bbox := (sx1, sy1, sx2, sy2) }

/-- Variant `calculate_dimensions(image, detections)`
(measurement_model.py:413-450), with the externally produced depth map and
the PIL `image.size = (orig_w, orig_h)` as inputs: appends one record per
detection, never skipping any. -/
def calculate_dimensions_v2 (dm : DepthMap) (orig_w orig_h : Nat)
    (dets : List Detection) : List Measurement :=
  dets.map (measureOneV2 dm orig_w orig_h)

/-! ### Concrete fixtures used by witnesses and counterexamples -/

/-- A 4×4 depth map consisting entirely of invalid (zero) depths. -/
def dmZeros : DepthMap := List.replicate 4 (List.replicate 4 (0 : ℚ))

/-- A 2×2 depth map with two valid values (5 and 3), one zero and one
far-plane value (12). -/
def dmMixed : DepthMap := [[0, 5], [3, 12]]

/-- A detection of an unknown class over the all-zero depth region. -/
def detObj : Detection := ⟨"object", 1/2, (0, 0, 2, 2)⟩

/-- A bottle detection. -/
def detBottle : Detection := ⟨"bottle", 4/5, (0, 0, 1, 1)⟩

/-- The measurement the active pipeline produces for `detBottle`. -/
def mBottle : Measurement := ⟨"bottle", "7.0×24.0 cm", 4/5 * (9/10), (0, 0, 1, 1)⟩

/-- A 2×2 all-black test image. -/
def imgTiny : ImageBuf := [[(0,0,0), (0,0,0)], [(0,0,0), (0,0,0)]]

/-- A detector stub returning no detections. -/
def detectNone : ImageBuf → List Detection := fun _ => []

/-- A detector stub returning exactly `detBottle`. -/
def detectBottle : ImageBuf → List Detection := fun _ => [detBottle]

/-- A detector stub returning a table-class detection (which measures
successfully) followed by an unknown-class detection (which, on a
zero-sized image, raises `ZeroDivisionError` after that partial work). -/
def detectPartial : ImageBuf → List Detection := fun _ => [detBottle, detObj]

/-- A trivial codec stub. -/
def encodeNil : ImageBuf → String := fun _ => ""

/-! ### Helper lemmas -/

/-- Python `int(...)` is the identity on (rationals that are) integers. -/
theorem pyInt_intCast (n : Int) : pyInt (n : ℚ) = n := by
  unfold pyInt
  split
  · exact Int.floor_intCast n
  · exact Int.ceil_intCast n

/-- The `.size` of a 2-D region is the length of its row-major
flattening. -/
theorem regionSize_eq_length_flatten (region : DepthMap) :
    regionSize region = region.flatten.length := by
  induction region with
  | nil => rfl
  | cons row rest ih =>
      simp only [regionSize, List.map_cons, List.sum_cons, List.flatten_cons,
        List.length_append] at ih ⊢
      omega

/-- Filtering for an exact confidence value commutes with
`List.orderedInsert confGE`: the insertion point is always before every
element of equal confidence, so an element of the filtered confidence is
prepended and nothing else changes. -/
theorem filter_confEq_orderedInsert (a : Measurement) (l : List Measurement) (c : ℚ) :
    (List.orderedInsert confGE a l).filter (fun m => decide (m.confidence = c)) =
      if a.confidence = c then
        a :: l.filter (fun m => decide (m.confidence = c))
      else l.filter (fun m => decide (m.confidence = c)) := by
  induction l with
  | nil =>
      by_cases hac : a.confidence = c <;>
        simp [List.orderedInsert, List.filter_cons, hac]
  | cons b t ih =>
      by_cases hab : confGE a b
      · rw [List.orderedInsert, if_pos hab]
        by_cases hac : a.confidence = c <;>
          simp [List.filter_cons, hac]
      · rw [List.orderedInsert, if_neg hab]
        have hbc : a.confidence < b.confidence := lt_of_not_le hab
        by_cases hac : a.confidence = c
        · have hb : ¬ b.confidence = c := by
            intro hbceq
            exact absurd (hbceq.trans hac.symm) (ne_of_gt hbc)
          simp [List.filter_cons, hb, ih, hac]
        · simp [List.filter_cons, ih, hac]

/-- Filtering for an exact confidence value commutes with the stable
descending sort: ties keep their input order, so the sorted list restricted
to one confidence value is exactly the input restricted to it. -/
theorem filter_confEq_insertionSort (l : List Measurement) (c : ℚ) :
    (List.insertionSort confGE l).filter (fun m => decide (m.confidence = c)) =
      l.filter (fun m => decide (m.confidence = c)) := by
  induction l with
  | nil => rfl
  | cons a t ih =>
      rw [List.insertionSort, filter_confEq_orderedInsert]
      by_cases hac : a.confidence = c <;> simp [List.filter_cons, hac, ih]

/-! ### Claim theorems -/

/-- C8: for every integer bounding box and every (nondegenerate) size `S`,
rescaling with identical source and destination sizes is a no-op:
`rescale(bbox, S, S) = bbox`. -/
theorem rescale_same_size_noop (bbox : Int × Int × Int × Int) (w h : Nat)
    (hw : w ≠ 0) (hh : h ≠ 0) : rescale bbox (w, h) (w, h) = bbox := by
  obtain ⟨x1, y1, x2, y2⟩ := bbox
  have hwq : ((w : ℚ)) ≠ 0 := Nat.cast_ne_zero.mpr hw
  have hhq : ((h : ℚ)) ≠ 0 := Nat.cast_ne_zero.mpr hh
  simp only [rescale, div_self hwq, div_self hhq, mul_one]
  rw [pyInt_intCast, pyInt_intCast, pyInt_intCast, pyInt_intCast]

/-- C8 witness: rescaling a concrete box from 640×480 to 640×480 returns it
unchanged. -/
theorem rescale_same_size_noop_witness :
    rescale (1, 2, 3, 4) (640, 480) (640, 480) = (1, 2, 3, 4) :=
  rescale_same_size_noop (1, 2, 3, 4) 640 480 (by decide) (by decide)

/-- C9: `draw_measurements` never mutates the original image: it draws on a
fresh copy, so the original buffer is identical before and after the call
and the returned annotated image is a distinct object (a different
reference). -/
theorem draw_measurements_preserves_original (σ : Store) (img : Nat)
    (results : List Measurement) (h : img < σ.bufs.length) :
    (draw_measurements σ img results).1.bufs.getD img [] = σ.bufs.getD img [] ∧
      (draw_measurements σ img results).2 ≠ img := by
  constructor
  · exact List.getD_append _ _ _ _ h
  · exact fun heq => absurd (heq ▸ h) (lt_irrefl _)

/-- C9 witness: drawing one measurement on a one-image store leaves that
image's pixels untouched and returns a fresh reference. -/
theorem draw_measurements_preserves_original_witness :
    0 < (Store.mk [imgTiny]).bufs.length ∧
      ((draw_measurements ⟨[imgTiny]⟩ 0 [mBottle]).1.bufs.getD 0 [] =
          (Store.mk [imgTiny]).bufs.getD 0 [] ∧
        (draw_measurements ⟨[imgTiny]⟩ 0 [mBottle]).2 ≠ 0) :=
  ⟨by decide, draw_measurements_preserves_original ⟨[imgTiny]⟩ 0 [mBottle] (by decide)⟩

/-- C5: when the list handed to the result assembler is empty, the result is
exactly `{success: false, message: "No objects detected", measurements: []}`
with no annotated image — a normal return value, not an exception. -/
theorem empty_detections_outcome (detect : ImageBuf → List Detection)
    (encode : ImageBuf → String) (d : ImageData) (img : ImageBuf)
    (hpre : preprocess_image d = .ok img)
    (hcalc : calculate_dimensions img (detect img) = .ok []) :
    process_image detect encode d =
      ⟨false, "No objects detected", [], none⟩ := by
  simp only [process_image, hpre, hcalc]
  rfl

/-- C5 witness: a decodable array input with zero detections yields the
exact "No objects detected" result. -/
theorem empty_detections_outcome_witness :
    process_image detectNone encodeNil (.ndarray imgTiny) =
      ⟨false, "No objects detected", [], none⟩ :=
  empty_detections_outcome detectNone encodeNil (.ndarray imgTiny) imgTiny rfl rfl

/-- C6: an input whose image cannot be decoded makes `process_image` return
the normal value `{success: false, message: "Error processing image:
<detail>", measurements: []}` with the exception text as detail; the
function is total, so no exception ever propagates to the caller. -/
theorem undecodable_input_is_error_result (detect : ImageBuf → List Detection)
    (encode : ImageBuf → String) (d : ImageData) (e : String)
    (hpre : preprocess_image d = .error e) :
    process_image detect encode d =
      ⟨false, "Error processing image: " ++ e, [], none⟩ := by
  unfold process_image
  rw [hpre]

/-- C6 witness: a corrupt data-URI input surfaces as the error-message
result. -/
theorem undecodable_input_is_error_result_witness :
    process_image detectNone encodeNil (.dataUri (.error ("cannot identify image file"))) =
      ⟨false, "Error processing image: cannot identify image file", [], none⟩ :=
  undecodable_input_is_error_result detectNone encodeNil
    (.dataUri (.error ("cannot identify image file"))) "cannot identify image file" rfl

/-- C3: for every result of `process_image`, `success` is true exactly when
the measurements list is non-empty; and a hard failure — an exception
raised either while decoding the image or later inside
`calculate_dimensions`, after earlier detections may already have produced
measurements — yields `success = false` with `measurements = []`
regardless of that partial work. -/
theorem success_iff_measurements_nonempty (detect : ImageBuf → List Detection)
    (encode : ImageBuf → String) (d : ImageData) :
    ((process_image detect encode d).success = true ↔
        (process_image detect encode d).measurements ≠ []) ∧
      (∀ e, preprocess_image d = .error e →
        (process_image detect encode d).success = false ∧
          (process_image detect encode d).measurements = []) ∧
      (∀ img e, preprocess_image d = .ok img →
        calculate_dimensions img (detect img) = .error e →
        (process_image detect encode d).success = false ∧
          (process_image detect encode d).measurements = []) := by
  refine ⟨?_, ?_, ?_⟩
  · unfold process_image
    cases hpre : preprocess_image d with
    | error e => simp
    | ok image =>
        cases hcalc : calculate_dimensions image (detect image) with
        | error e => simp [hcalc]
        | ok results =>
            by_cases hres : results = []
            · simp [hcalc, hres]
            · have hlen : (List.insertionSort confGE results).length = results.length :=
                List.length_insertionSort confGE results
              have hnil : List.insertionSort confGE results ≠ [] := by
                intro hs
                rw [hs] at hlen
                exact hres (List.eq_nil_of_length_eq_zero hlen.symm)
              simp [hcalc, hres, hnil]
  · intro e hpre
    simp [process_image, hpre]
  · intro img e hpre hcalc
    simp [process_image, hpre, hcalc]

/-- C3 witness: an undecodable input is a hard failure with `success =
false` and empty measurements; so is a `ZeroDivisionError` raised inside
`calculate_dimensions` on a zero-sized image after a first (table-class)
detection already produced a measurement — the partial work is
discarded. -/
theorem success_iff_measurements_nonempty_witness :
    ((process_image detectNone encodeNil .otherType).success = false ∧
        (process_image detectNone encodeNil .otherType).measurements = []) ∧
      ((process_image detectPartial encodeNil (.ndarray [])).success = false ∧
        (process_image detectPartial encodeNil (.ndarray [])).measurements = []) :=
  ⟨(success_iff_measurements_nonempty detectNone encodeNil .otherType).2.1
      ("Unsupported image data format") rfl,
    (success_iff_measurements_nonempty detectPartial encodeNil (.ndarray [])).2.2
      [] ("division by zero") rfl (by with_unfolding_all rfl)⟩

/-- C4: the measurements of every result are sorted by descending
confidence, and ties between equal confidences keep the original input
order: restricting the output to any one confidence value gives exactly the
pre-sort list restricted to that value (stable sort). -/
theorem measurements_sorted_descending_stable (detect : ImageBuf → List Detection)
    (encode : ImageBuf → String) (d : ImageData) :
    List.Sorted confGE ((process_image detect encode d).measurements) ∧
      (∀ img results, preprocess_image d = .ok img →
        calculate_dimensions img (detect img) = .ok results →
        ∀ c : ℚ,
          ((process_image detect encode d).measurements.filter
              fun m => decide (m.confidence = c)) =
            (results.filter fun m => decide (m.confidence = c))) := by
  constructor
  · unfold process_image
    cases hpre : preprocess_image d with
    | error e => simp
    | ok image =>
        cases hcalc : calculate_dimensions image (detect image) with
        | error e => simp [hcalc]
        | ok results =>
            by_cases hres : results = []
            · simp [hcalc, hres]
            · simpa [hcalc, hres] using List.sorted_insertionSort confGE results
  · intro img results hpre hcalc c
    simp only [process_image, hpre, hcalc]
    by_cases hres : results = []
    · simp [hres]
    · simpa [hres] using filter_confEq_insertionSort results c

/-- C4 witness: on a concrete run with one detection, the output restricted
to the emitted confidence value equals the pre-sort list so restricted. -/
theorem measurements_sorted_descending_stable_witness :
    ((process_image detectBottle encodeNil (.ndarray imgTiny)).measurements.filter
        fun m => decide (m.confidence = 18/25)) =
      ([mBottle].filter fun m => decide (m.confidence = 18/25)) :=
  (measurements_sorted_descending_stable detectBottle encodeNil (.ndarray imgTiny)).2
    imgTiny [mBottle] rfl (by with_unfolding_all rfl) (18/25)

/-- C7: the depth sampler crops `depth_map[y1:y2, x1:x2]`; an empty crop
gives `0`; a non-empty crop gives the median of the values kept by the
strict validity filter, or `0` when the filter keeps nothing; every kept
value lies strictly between `0` and the maximum valid depth `10`. -/
theorem depth_sampler_spec (dm : DepthMap) (x1 y1 x2 y2 : Int) :
    ((cropRegion dm y1 y2 x1 x2).flatten = [] →
        sample_depth dm (x1, y1, x2, y2) = 0) ∧
      ((cropRegion dm y1 y2 x1 x2).flatten ≠ [] →
        sample_depth dm (x1, y1, x2, y2) =
          if keptDepths (cropRegion dm y1 y2 x1 x2) = [] then 0
          else npMedian (keptDepths (cropRegion dm y1 y2 x1 x2))) ∧
      (∀ v ∈ keptDepths (cropRegion dm y1 y2 x1 x2), 0 < v ∧ v < 10) := by
  refine ⟨?_, ?_, ?_⟩
  · intro hflat
    have hsz : regionSize (cropRegion dm y1 y2 x1 x2) = 0 := by
      rw [regionSize_eq_length_flatten, hflat]
      rfl
    simp [sample_depth, hsz]
  · intro hflat
    have hsz : 0 < regionSize (cropRegion dm y1 y2 x1 x2) := by
      rw [regionSize_eq_length_flatten]
      exact List.length_pos.mpr hflat
    by_cases hkept : keptDepths (cropRegion dm y1 y2 x1 x2) = []
    · simp [sample_depth, hsz, hkept]
    · have hpos : 0 < (keptDepths (cropRegion dm y1 y2 x1 x2)).length :=
        List.length_pos.mpr hkept
      simp [sample_depth, hsz, hkept, hpos]
  · intro v hv
    simp only [keptDepths, List.mem_filter, decide_eq_true_eq] at hv
    exact hv.2

/-- C7 witness: on a concrete depth map with a non-empty crop, the sampled
depth is the median of the values kept by the validity filter. -/
theorem depth_sampler_spec_witness :
    (cropRegion dmMixed 0 2 0 2).flatten ≠ [] ∧
      sample_depth dmMixed (0, 0, 2, 2) =
        (if keptDepths (cropRegion dmMixed 0 2 0 2) = [] then 0
         else npMedian (keptDepths (cropRegion dmMixed 0 2 0 2))) :=
  ⟨by decide, (depth_sampler_spec dmMixed 0 0 2 2).2.1 (by decide)⟩

/-- C1 counterexample: a detection whose bbox region of the depth map
contains only zeros (sampled depth `0`, still `0` after correction) is NOT
excluded from the results: the depth-aware `calculate_dimensions` emits it
with the degenerate size string `"0.00×0.00 m"`. -/
theorem zero_depth_detection_still_emitted :
    calculate_dimensions_v2 dmZeros 640 480 [detObj] =
      [⟨"object", "0.00×0.00 m", 1/2, (0, 0, 2, 2)⟩] := by
  with_unfolding_all rfl

/-- C1 amended: a detection whose sampled depth is `0` (in particular one
whose bbox depth region holds only values ≤ 0) is still included in the
measurements — no detection is ever skipped, the output has one record per
detection — and its record carries the degenerate size `"0.00×0.00 m"` with
the detection's unchanged confidence. -/
theorem zero_depth_emitted_with_zero_size (dm : DepthMap) (ow oh : Nat)
    (dets : List Detection) (d : Detection) (hmem : d ∈ dets)
    (hdepth : sample_depth dm d.bbox = 0) :
    (calculate_dimensions_v2 dm ow oh dets).length = dets.length ∧
      ∃ m ∈ calculate_dimensions_v2 dm ow oh dets,
        m.objectName = d.cls ∧ m.confidence = d.confidence ∧
          m.dimensions = "0.00×0.00 m" := by
  refine ⟨by simp [calculate_dimensions_v2], measureOneV2 dm ow oh d,
    List.mem_map_of_mem _ hmem, ?_, ?_, ?_⟩
  · obtain ⟨cls, conf, x1, y1, x2, y2⟩ := d
    rfl
  · obtain ⟨cls, conf, x1, y1, x2, y2⟩ := d
    rfl
  · obtain ⟨cls, conf, x1, y1, x2, y2⟩ := d
    simp only [measureOneV2]
    rw [show (⟨cls, conf, (x1, y1, x2, y2)⟩ : Detection).bbox
          = (x1, y1, x2, y2) from rfl] at hdepth
    rw [hdepth]
    simp only [zero_mul, mul_zero]
    with_unfolding_all rfl

/-- C1 witness for the amended statement: the all-zero depth map fixture
samples to depth `0`, yet its detection is emitted with `"0.00×0.00 m"`. -/
theorem zero_depth_emitted_with_zero_size_witness :
    sample_depth dmZeros detObj.bbox = 0 ∧
      ((calculate_dimensions_v2 dmZeros 640 480 [detObj]).length = [detObj].length ∧
        ∃ m ∈ calculate_dimensions_v2 dmZeros 640 480 [detObj],
          m.objectName = detObj.cls ∧ m.confidence = detObj.confidence ∧
            m.dimensions = "0.00×0.00 m") :=
  ⟨by with_unfolding_all rfl,
    zero_depth_emitted_with_zero_size dmZeros 640 480 [detObj] detObj
      (List.mem_cons_self detObj []) (by with_unfolding_all rfl)⟩

/-- C2 counterexample: the active pipeline emits `"7.0×24.0 cm"` for a
bottle detection — one-decimal fixed point with a `cm` unit — which is not
the claimed `"{width:.2f}×{height:.2f} m"` string, neither with the
computed centimetre values (7 and 24) nor with their metre equivalents. -/
theorem active_dimension_string_not_two_decimal_metres :
    calculate_dimensions imgTiny [detBottle] = .ok [mBottle] ∧
      mBottle.dimensions = "7.0×24.0 cm" ∧
      "7.0×24.0 cm" ≠ fmtFixed 2 7 ++ "×" ++ fmtFixed 2 24 ++ " m" ∧
      "7.0×24.0 cm" ≠ fmtFixed 2 (7/100) ++ "×" ++ fmtFixed 2 (24/100) ++ " m" := by
  refine ⟨by with_unfolding_all rfl, rfl, ?_, ?_⟩
  · with_unfolding_all decide
  · with_unfolding_all decide

/-- C2 amended: the active `calculate_dimensions` formats every emitted
dimensions field as `"{width_cm:.1f}×{height_cm:.1f} cm"` (one-decimal
fixed point, centimetre unit); the `"{width:.2f}×{height:.2f} m"` format of
the claim is produced only by the commented-out depth/FOV variant. -/
theorem dimension_string_formats :
    (∀ (h w : Nat) (d : Detection) (m : Measurement),
        measureOne h w d = .ok m →
        ∃ wc hc : ℚ, m.dimensions = fmtFixed 1 wc ++ "×" ++ fmtFixed 1 hc ++ " cm") ∧
      (∀ (dm : DepthMap) (ow oh : Nat) (dets : List Detection) (m : Measurement),
        m ∈ calculate_dimensions_v2 dm ow oh dets →
        ∃ wq hq : ℚ, m.dimensions = fmtFixed 2 wq ++ "×" ++ fmtFixed 2 hq ++ " m") := by
  constructor
  · intro h w d m hm
    obtain ⟨cls, conf, x1, y1, x2, y2⟩ := d
    cases hco : common_objects cls with
    | some p =>
        obtain ⟨wmm, hmm⟩ := p
        simp only [measureOne, hco] at hm
        rw [Except.ok.injEq] at hm
        exact ⟨wmm / 10, hmm / 10, by rw [← hm]⟩
    | none =>
        simp only [measureOne, hco] at hm
        by_cases hz : w = 0 ∨ h = 0
        · rw [if_pos hz] at hm
          exact absurd hm (by simp)
        · rw [if_neg hz, Except.ok.injEq] at hm
          exact ⟨_, _, by rw [← hm]⟩
  · intro dm ow oh dets m hmem
    simp only [calculate_dimensions_v2, List.mem_map] at hmem
    obtain ⟨d, hd, hdm⟩ := hmem
    subst hdm
    obtain ⟨cls, conf, x1, y1, x2, y2⟩ := d
    exact ⟨_, _, rfl⟩

/-- C2 witness for the amended statement: the bottle record's dimensions
string is of the one-decimal centimetre shape. -/
theorem dimension_string_formats_witness :
    ∃ wc hc : ℚ, mBottle.dimensions = fmtFixed 1 wc ++ "×" ++ fmtFixed 1 hc ++ " cm" :=
  dimension_string_formats.1 2 2 detBottle mBottle (by with_unfolding_all rfl)

/-- Lookup-hit behaviour of the active `calculate_dimensions` loop body:
a class present in `common_objects` yields the table-derived constant
dimension string and a `0.9`-scaled confidence. -/
theorem measureOne_table (h w : Nat) (cls : String) (conf : ℚ)
    (bbox : Int × Int × Int × Int) (wmm hmm : ℚ)
    (hco : common_objects cls = some (wmm, hmm)) :
    measureOne h w ⟨cls, conf, bbox⟩ =
      .ok ⟨cls, fmtFixed 1 (wmm / 10) ++ "×" ++ fmtFixed 1 (hmm / 10) ++ " cm",
        conf * (9/10), bbox⟩ := by
  obtain ⟨x1, y1, x2, y2⟩ := bbox
  simp [measureOne, hco]

/-- C10: a detection of one of the six `common_objects` classes is emitted
with a fixed per-class dimensions string — independent of the bounding box,
the image size, and any depth data, none of which the table branch reads —
and with confidence `detector confidence × 0.9`; any other class gets
confidence `detector confidence × 0.7`. -/
theorem common_object_constant_dimensions (h w : Nat) (d : Detection)
    (m : Measurement) (hm : measureOne h w d = .ok m) :
    (d.cls = "bottle" → m.dimensions = "7.0×24.0 cm") ∧
      (d.cls = "cell phone" → m.dimensions = "7.0×15.0 cm") ∧
      (d.cls = "laptop" → m.dimensions = "33.0×23.0 cm") ∧
      (d.cls = "keyboard" → m.dimensions = "45.0×15.0 cm") ∧
      (d.cls = "mouse" → m.dimensions = "6.0×11.0 cm") ∧
      (d.cls = "book" → m.dimensions = "15.0×22.0 cm") ∧
      ((common_objects d.cls).isSome = true →
        m.objectName = d.cls ∧ m.confidence = d.confidence * (9/10) ∧ m.bbox = d.bbox) ∧
      (common_objects d.cls = none → m.confidence = d.confidence * (7/10)) := by
  obtain ⟨cls, conf, bbox⟩ := d
  refine ⟨?_, ?_, ?_, ?_, ?_, ?_, ?_, ?_⟩
  · intro hcls
    subst hcls
    rw [measureOne_table h w ("bottle") conf bbox 70 240 rfl, Except.ok.injEq] at hm
    rw [← hm]
    with_unfolding_all rfl
  · intro hcls
    subst hcls
    rw [measureOne_table h w ("cell phone") conf bbox 70 150 rfl, Except.ok.injEq] at hm
    rw [← hm]
    with_unfolding_all rfl
  · intro hcls
    subst hcls
    rw [measureOne_table h w ("laptop") conf bbox 330 230 rfl, Except.ok.injEq] at hm
    rw [← hm]
    with_unfolding_all rfl
  · intro hcls
    subst hcls
    rw [measureOne_table h w ("keyboard") conf bbox 450 150 rfl, Except.ok.injEq] at hm
    rw [← hm]
    with_unfolding_all rfl
  · intro hcls
    subst hcls
    rw [measureOne_table h w ("mouse") conf bbox 60 110 rfl, Except.ok.injEq] at hm
    rw [← hm]
    with_unfolding_all rfl
  · intro hcls
    subst hcls
    rw [measureOne_table h w ("book") conf bbox 150 220 rfl, Except.ok.injEq] at hm
    rw [← hm]
    with_unfolding_all rfl
  · intro hsome
    cases hco : common_objects cls with
    | none => rw [hco] at hsome; exact absurd hsome (by simp)
    | some p =>
        obtain ⟨wmm, hmm⟩ := p
        rw [measureOne_table h w _ conf bbox wmm hmm hco, Except.ok.injEq] at hm
        rw [← hm]
        exact ⟨rfl, rfl, rfl⟩
  · intro hnone
    obtain ⟨x1, y1, x2, y2⟩ := bbox
    simp only [measureOne, hnone] at hm
    by_cases hz : w = 0 ∨ h = 0
    · rw [if_pos hz] at hm
      exact absurd hm (by simp)
    · rw [if_neg hz, Except.ok.injEq] at hm
      rw [← hm]

/-- C10 witness: the concrete bottle detection is emitted with the
per-class constant string and the `0.9`-scaled confidence. -/
theorem common_object_constant_dimensions_witness :
    mBottle.dimensions = "7.0×24.0 cm" ∧
      mBottle.confidence = detBottle.confidence * (9/10) :=
  ⟨(common_object_constant_dimensions 2 2 detBottle mBottle
      (by with_unfolding_all rfl)).1 rfl,
    ((common_object_constant_dimensions 2 2 detBottle mBottle
        (by with_unfolding_all rfl)).2.2.2.2.2.2.1 rfl).2.1⟩

end DimensiMeasure
